import Mathlib

/-!
Verification of the core logic of `technical_seo_auditor.py`:

* the per-page severity cascade (`compute_severity`),
* the per-page audit signal extraction (`audit_html`) over a shallow
  embedding of the markup-parser collaborator's element tree,
* the fetch-failure fallback record built in `main`, and
* the recursive sitemap resolver (`parse_sitemap`), modelled as a fueled
  worklist loop over an abstract "world" mapping sitemap URLs to the
  documents the fetch+XML-parse collaborators would produce for them.

Machine integers are modelled as `Nat` (all counters in the source are
non-negative Python ints and never overflow), statuses as the literal
strings the source uses.
-/

namespace SeoAudit

/-! ### Constants (source lines 17-21) -/

def THIN_CONTENT_THRESHOLD : Nat := 300
def TITLE_MIN_LEN : Nat := 30
def TITLE_MAX_LEN : Nat := 60
def DESC_MIN_LEN : Nat := 50
def DESC_MAX_LEN : Nat := 160

/-! ### String helpers mirroring the Python primitives used by the source -/

/-- Whitespace characters recognised by Python's `str.strip` / `\s`
(ASCII range; the audited signals never depend on non-ASCII whitespace). -/
def pySpace (c : Char) : Bool :=
  c == ' ' || c == '\t' || c == '\n' || c == '\r' || c == '\x0b' || c == '\x0c'

/-- Python `str.strip()`. -/
def pyStrip (s : String) : String :=
  ⟨((s.toList.dropWhile pySpace).reverse.dropWhile pySpace).reverse⟩

/-- One pass of `re.sub(r"\s+", " ", ·)`: collapse whitespace runs to a single
space.  The boolean records whether the previous character was whitespace. -/
def collapseWS : List Char → Bool → List Char
  | [], _ => []
  | c :: cs, prev =>
    if pySpace c then
      if prev then collapseWS cs true else ' ' :: collapseWS cs true
    else c :: collapseWS cs false

/-- `_normalize_space` (source lines 26-27): strip, then collapse whitespace
runs to single spaces. -/
def normalize_space (s : String) : String :=
  ⟨collapseWS (pyStrip s).toList false⟩

/-- A character matched by the word regex `[A-Za-z0-9']` (source line 24). -/
def isWordChar (c : Char) : Bool :=
  c.isAlpha || c.isDigit || c == '\''

/-- Count the maximal runs of word characters; the boolean records whether we
are currently inside a run. -/
def countRuns : List Char → Bool → Nat
  | [], _ => 0
  | c :: cs, inRun =>
    if isWordChar c then
      if inRun then countRuns cs true else 1 + countRuns cs true
    else countRuns cs false

/-- `_count_words` (source lines 29-30): number of `WORD_RE` matches. -/
def count_words (text : String) : Nat := countRuns text.toList false

/-- Python `str.startswith`. -/
def strStartsWith (s pre : String) : Bool := pre.toList.isPrefixOf s.toList

/-- Python `str.endswith`. -/
def strEndsWith (s suf : String) : Bool := suf.toList.isSuffixOf s.toList

/-- Python slicing `s[n:]`. -/
def pySliceFrom (s : String) (n : Nat) : String := ⟨s.toList.drop n⟩

/-- Python `str.lower()` (ASCII case folding as used on URL hosts). -/
def pyLower (s : String) : String := ⟨s.toList.map Char.toLower⟩

/-- Python `str.rstrip('/')`: drop every trailing slash. -/
def rstripSlash (s : String) : String :=
  ⟨(s.toList.reverse.dropWhile (fun c => c == '/')).reverse⟩

/-! ### `_get_domain` (source lines 32-40), on top of a model of
`urllib.parse.urlparse`'s netloc extraction. -/

/-- A character allowed in a URL scheme (`urllib.parse.scheme_chars`). -/
def isSchemeChar (c : Char) : Bool :=
  c.isAlpha || c.isDigit || c == '+' || c == '-' || c == '.'

/-- Drop a leading `scheme:` if present, as `urlparse` does: the text before
the first `:` must be non-empty, start with a letter, and consist of scheme
characters only. -/
def removeScheme (s : String) : String :=
  match s.toList.findIdx? (fun c => c == ':') with
  | some i =>
    if 0 < i ∧ (s.toList.take i).all isSchemeChar ∧ (s.toList.headD ' ').isAlpha then
      ⟨s.toList.drop (i + 1)⟩
    else s
  | none => s

/-- `urlparse(·).netloc`: present exactly when the remainder after the scheme
starts with `//`; it extends to the next `/`, `?` or `#`. -/
def netlocOf (s : String) : String :=
  let r := removeScheme s
  if strStartsWith r "//" then
    ⟨(r.toList.drop 2).takeWhile (fun c => !(c == '/' || c == '?' || c == '#'))⟩
  else ""

/-- `_get_domain` (source lines 32-40): lower-cased netloc with a leading
`www.` stripped. -/
def get_domain (href : String) : String :=
  let host := pyLower (netlocOf href)
  if strStartsWith host "www." then pySliceFrom host 4 else host

/-! ### The element tree produced by the markup-parser collaborator -/

/-- A parsed HTML node: either a text node or an element with a tag name, an
attribute list and children.  This is the output shape of the external
markup-parsing collaborator that `audit_html` consumes. -/
inductive Node where
  | text : String → Node
  | elem : String → List (String × String) → List Node → Node

mutual

/-- All nodes of the subtree rooted at `n`, in document (preorder) order —
the order in which BeautifulSoup's `find` / `find_all` traverse. -/
def Node.flatten : Node → List Node
  | .text s => [Node.text s]
  | .elem t a cs => Node.elem t a cs :: flattenMany cs

def flattenMany : List Node → List Node
  | [] => []
  | n :: ns => n.flatten ++ flattenMany ns

end

/-- `tag.get(key)`: first value bound to an attribute name. -/
def Node.getAttr : Node → String → Option String
  | .text _, _ => none
  | .elem _ attrs _, key => attrs.lookup key

/-- Is this node an element with the given tag name? -/
def Node.isElemTag : Node → String → Bool
  | .elem t _ _, tag => t == tag
  | .text _, _ => false

/-- Is this node an element (as opposed to a text node)? -/
def Node.isElem : Node → Bool
  | .elem _ _ _ => true
  | .text _ => false

/-- `soup.find_all(True)`: every element, in document order. -/
def allElems (doc : Node) : List Node := doc.flatten.filter Node.isElem

/-- `soup.find(tag)`: first element with the given tag, in document order. -/
def findTag (doc : Node) (tag : String) : Option Node :=
  doc.flatten.find? (fun n => n.isElemTag tag)

/-- `soup.find(tag, attrs={key: val})`: first element with the given tag whose
attribute `key` equals `val` exactly (case-sensitive). -/
def findTagAttr (doc : Node) (tag key val : String) : Option Node :=
  doc.flatten.find? (fun n => n.isElemTag tag && n.getAttr key == some val)

/-- All text-node contents of the subtree, in document order. -/
def textsOf (doc : Node) : List String :=
  doc.flatten.filterMap (fun n => match n with | .text s => some s | _ => none)

/-- `get_text(separator)`: all descendant strings joined by the separator. -/
def getTextSep (doc : Node) (sep : String) : String :=
  String.intercalate sep (textsOf doc)

/-- `get_text(strip=True)`: every descendant string stripped, concatenated. -/
def getTextStripped (doc : Node) : String :=
  String.join ((textsOf doc).map pyStrip)

/-! ### `audit_html` (source lines 141-225) -/

/-- The dictionary produced per page (`audit_html`'s return value, plus the
`http_status` key that `main` adds before computing severity; `audit_html`
itself leaves `http_status` at 0 until the caller sets it). -/
structure AuditData where
  word_count : Nat
  is_thin_content : Nat
  title : String
  title_len : Nat
  title_status : String
  meta_desc : String
  meta_desc_len : Nat
  meta_desc_status : String
  h1_count : Nat
  canonical_link : String
  canonical_status : String
  internal_links : Nat
  external_links : Nat
  broken_anchors : Nat
  img_missing_alt : Nat
  http_status : Nat
deriving DecidableEq

/-- Title length bucketing, the branch chain at source lines 150-153. -/
def titleStatusOfLen (t_len : Nat) : String :=
  if t_len = 0 then "MISSING"
  else if t_len < TITLE_MIN_LEN then "TOO_SHORT"
  else if t_len > TITLE_MAX_LEN then "TOO_LONG"
  else "OK"

/-- Meta-description length bucketing, the branch chain at source
lines 162-165. -/
def descStatusOfLen (d_len : Nat) : String :=
  if d_len = 0 then "MISSING"
  else if d_len < DESC_MIN_LEN then "TOO_SHORT"
  else if d_len > DESC_MAX_LEN then "TOO_LONG"
  else "OK"

/-- Source lines 156-159: `content` of the first `meta` element whose `name`
attribute equals `"description"`, stripped; `""` when the element or a
non-empty `content` is absent. -/
def metaDescOf (doc : Node) : String :=
  match findTagAttr doc "meta" "name" "description" with
  | some d_tag =>
    match d_tag.getAttr "content" with
    | some c => if c = "" then "" else pyStrip c
    | none => ""
  | none => ""

/-- Source lines 168-171: `href` of the first `link` element whose `rel`
attribute equals `"canonical"`, stripped; `""` when absent or empty. -/
def canonicalHrefOf (doc : Node) : String :=
  match findTagAttr doc "link" "rel" "canonical" with
  | some c_tag =>
    match c_tag.getAttr "href" with
    | some h => if h = "" then "" else pyStrip h
    | none => ""
  | none => ""

/-- The body of the anchor-classification loop (source lines 189-204) for one
`href` value; the accumulator is `(internal, external, broken_anchors)`. -/
def linkStepHref (ids : List String) (domain : String) (acc : Nat × Nat × Nat)
    (href : String) : Nat × Nat × Nat :=
  if href = "" ∨ strStartsWith href "mailto:" ∨ strStartsWith href "tel:" ∨
      strStartsWith href "javascript:" then acc
  else if strStartsWith href "#" then
    if 1 < href.length ∧ pySliceFrom href 1 ∉ ids then
      (acc.1, acc.2.1, acc.2.2 + 1)
    else acc
  else
    let link_domain := get_domain href
    if link_domain = "" then (acc.1 + 1, acc.2.1, acc.2.2)
    else if link_domain = domain ∨ strEndsWith link_domain ("." ++ domain) then
      (acc.1 + 1, acc.2.1, acc.2.2)
    else (acc.1, acc.2.1 + 1, acc.2.2)

/-- One anchor element: its classified `href` is `a.get("href") or ""`. -/
def linkStep (ids : List String) (domain : String) (acc : Nat × Nat × Nat)
    (a : Node) : Nat × Nat × Nat :=
  linkStepHref ids domain acc ((a.getAttr "href").getD "")

/-- The set of non-empty element `id` values (source line 187). -/
def idsOf (doc : Node) : List String :=
  (allElems doc).filterMap (fun n =>
    match n.getAttr "id" with
    | some i => if i = "" then none else some i
    | none => none)

/-- The anchor elements of the document in document order. -/
def anchorsOf (doc : Node) : List Node :=
  (allElems doc).filter (fun n => n.isElemTag "a")

/-- `audit_html(url, html, domain)` (source lines 141-225), taking the parsed
element tree in place of the raw HTML string. -/
def audit_html (url : String) (doc : Node) (domain : String) : AuditData :=
  let text_all := normalize_space (getTextSep doc " ")
  let word_count := count_words text_all
  let title := match findTag doc "title" with
    | some t => getTextStripped t
    | none => ""
  let t_len := title.length
  let meta_desc := metaDescOf doc
  let d_len := meta_desc.length
  let canon_href := canonicalHrefOf doc
  let c_status :=
    if canon_href = "" then "MISSING"
    else if rstripSlash canon_href = rstripSlash url then "SELF"
    else "OTHER"
  let h1_count := ((allElems doc).filter (fun n => n.isElemTag "h1")).length
  let ids := idsOf doc
  let counts := (anchorsOf doc).foldl (linkStep ids domain) (0, 0, 0)
  let img_missing_alt := ((allElems doc).filter (fun n => n.isElemTag "img")).countP
    (fun im => (im.getAttr "alt").getD "" == "")
  { word_count := word_count
    is_thin_content := if word_count < THIN_CONTENT_THRESHOLD then 1 else 0
    title := title
    title_len := t_len
    title_status := titleStatusOfLen t_len
    meta_desc := meta_desc
    meta_desc_len := d_len
    meta_desc_status := descStatusOfLen d_len
    h1_count := h1_count
    canonical_link := canon_href
    canonical_status := c_status
    internal_links := counts.1
    external_links := counts.2.1
    broken_anchors := counts.2.2
    img_missing_alt := img_missing_alt
    http_status := 0 }

/-! ### `compute_severity` (source lines 227-239) and the per-page driver in
`main` (source lines 263-280) -/

/-- The ordered short-circuit severity cascade (source lines 227-239).
`is_thin_content` is an `int` in the source, tested by Python truthiness. -/
def compute_severity (m : AuditData) : String :=
  if 400 ≤ m.http_status then "ERROR"
  else if m.h1_count = 0 then "ERROR"
  else if m.canonical_status = "MISSING" then "ERROR"
  else if m.title_status = "MISSING" then "ERROR"
  else if m.is_thin_content ≠ 0 then "WARN"
  else if m.meta_desc_status ≠ "OK" then "WARN"
  else if m.title_status ≠ "OK" then "WARN"
  else if 0 < m.broken_anchors then "WARN"
  else if 0 < m.img_missing_alt then "WARN"
  else "OK"

/-- Index (1-10) of the first cascade rule that fires in `compute_severity`;
rule 10 is the final `return "OK"`.  This instruments *why* a severity was
assigned, mirroring the branch order of source lines 227-239. -/
def severityRuleIndex (m : AuditData) : Nat :=
  if 400 ≤ m.http_status then 1
  else if m.h1_count = 0 then 2
  else if m.canonical_status = "MISSING" then 3
  else if m.title_status = "MISSING" then 4
  else if m.is_thin_content ≠ 0 then 5
  else if m.meta_desc_status ≠ "OK" then 6
  else if m.title_status ≠ "OK" then 7
  else if 0 < m.broken_anchors then 8
  else if 0 < m.img_missing_alt then 9
  else 10

/-- The fixed all-missing/zeroed record built in `main` (source lines
268-274) together with the `http_status` key added at line 278. -/
def fallbackData (status : Nat) : AuditData :=
  { word_count := 0, is_thin_content := 0, title := "", title_len := 0,
    title_status := "MISSING", meta_desc := "", meta_desc_len := 0,
    meta_desc_status := "MISSING", h1_count := 0, canonical_link := "",
    canonical_status := "MISSING", internal_links := 0, external_links := 0,
    broken_anchors := 0, img_missing_alt := 0, http_status := status }

/-- The per-page record construction in `main` (source lines 265-278): the
fallback record when the fetch failed (`status >= 400 or not html`), otherwise
`audit_html` on the parsed body, with the actual `http_status` added.
`parseHtml` stands for the markup-parsing collaborator. -/
def processPage (parseHtml : String → Node) (url domain : String)
    (status : Nat) (body : String) : AuditData :=
  if 400 ≤ status ∨ body = "" then fallbackData status
  else { audit_html url (parseHtml body) domain with http_status := status }

/-! ### The severity cascade as an ordered rule list (from the spec's words,
for comparison with `compute_severity`) -/

/-- The spec's severity cascade as an explicit ordered list of
predicate/outcome pairs ("evaluated in this exact order; first match wins"). -/
def severityCascade : List ((AuditData → Bool) × String) :=
  [ (fun m => decide (400 ≤ m.http_status), "ERROR"),
    (fun m => decide (m.h1_count = 0), "ERROR"),
    (fun m => decide (m.canonical_status = "MISSING"), "ERROR"),
    (fun m => decide (m.title_status = "MISSING"), "ERROR"),
    (fun m => decide (m.is_thin_content ≠ 0), "WARN"),
    (fun m => decide (m.meta_desc_status ≠ "OK"), "WARN"),
    (fun m => decide (m.title_status ≠ "OK"), "WARN"),
    (fun m => decide (0 < m.broken_anchors), "WARN"),
    (fun m => decide (0 < m.img_missing_alt), "WARN") ]

/-- First-match evaluation of an ordered rule list; `"OK"` when no rule
fires. -/
def firstMatch : List ((AuditData → Bool) × String) → AuditData → String
  | [], _ => "OK"
  | rule :: rest, m => if rule.1 m then rule.2 else firstMatch rest m

/-! ### `parse_sitemap` (source lines 50-110)

The network and the XML parser are external collaborators; a `World` maps a
sitemap URL to the classified document the fetch + parse + namespace-strip +
root-tag dispatch of source lines 65-80 would yield for it:

* `SDoc.index ls` — root tag `sitemapindex`; `ls` are the `<sitemap><loc>`
  texts (source lines 80-86),
* `SDoc.urlset ls` — root tag `urlset`; `ls` are the `<url><loc>` texts
  (source lines 89-93),
* `SDoc.other ls` — any other root tag; `ls` are all `.//loc` texts, each
  classified by its `.xml` suffix (source lines 95-103),
* `SDoc.bad` — fetch failure (`code != 200 or not xml_text`) or
  `ET.ParseError` (source lines 66-68 and 105-107); the node is skipped.

A URL absent from the world also fails to fetch.  An empty string in `ls`
models a `loc` element with falsy (empty/`None`) text, which the source
skips before stripping. -/

inductive SDoc where
  | index : List String → SDoc
  | urlset : List String → SDoc
  | other : List String → SDoc
  | bad : SDoc
deriving DecidableEq

abbrev World := List (String × SDoc)

/-- The sitemap URLs known to the world. -/
def keysOf (world : World) : List String := world.map Prod.fst

/-- How many URLs a document can put on the queue. -/
def docSize : SDoc → Nat
  | .index ls => ls.length
  | .urlset _ => 0
  | .other ls => ls.length
  | .bad => 0

/-- Total enqueue capacity of the world. -/
def sumSizes (world : World) : Nat := (world.map (fun p => docSize p.2)).sum

/-- Strict upper bound on how many URLs one loop iteration can enqueue. -/
def enqBound (world : World) : Nat := sumSizes world + 1

/-- Processing one dequeued, not-yet-seen URL (source lines 65-107): the pair
is (URLs appended to the queue, page URLs appended to `final_urls`).  `seen`
is the visited set *after* the current URL was added to it, as in the source
(line 62 precedes line 85's membership test). -/
def processURL (world : World) (seen : List String) (u : String) :
    List String × List String :=
  match world.lookup u with
  | some (.index ls) =>
    (ls.filterMap (fun t =>
        if t = "" then none
        else if pyStrip t ∈ seen then none else some (pyStrip t)), [])
  | some (.urlset ls) =>
    ([], ls.filterMap (fun t => if t = "" then none else some (pyStrip t)))
  | some (.other ls) =>
    (ls.filterMap (fun t =>
        if t = "" then none
        else if strEndsWith (pyStrip t) ".xml" then some (pyStrip t) else none),
     ls.filterMap (fun t =>
        if t = "" then none
        else if strEndsWith (pyStrip t) ".xml" then none else some (pyStrip t)))
  | some .bad => ([], [])
  | none => ([], [])

/-- The worklist loop of `parse_sitemap` (source lines 58-107), made total by
a fuel parameter (the source loop's termination is exactly the statement that
a computable amount of fuel suffices — see `resolveLoop_isSome`).  Arguments:
fuel, FIFO queue, visited set, accumulated `final_urls`, and the log of URLs
actually fetched.  An empty queue ends the loop regardless of fuel. -/
def resolveLoop (world : World) :
    Nat → List String → List String → List String → List String →
    Option (List String × List String)
  | _, [], _, acc, log => some (acc, log)
  | 0, _ :: _, _, _, _ => none
  | fuel + 1, u :: rest, seen, acc, log =>
    if u ∈ seen then resolveLoop world fuel rest seen acc log
    else
      resolveLoop world fuel (rest ++ (processURL world (u :: seen) u).1)
        (u :: seen) (acc ++ (processURL world (u :: seen) u).2) (log ++ [u])

/-- Number of world URLs not yet visited. -/
def unvisited (world : World) (seen : List String) : Nat :=
  (keysOf world).countP (fun x => decide (x ∉ seen))

/-- Decreasing measure of the worklist loop. -/
def loopMeasure (world : World) (queue seen : List String) : Nat :=
  enqBound world * unvisited world seen + queue.length

/-- Fuel sufficient for the whole resolution starting from one root. -/
def fuelBound (world : World) (root : String) : Nat :=
  loopMeasure world [root] []

/-- Run the resolver loop from a root sitemap URL with sufficient fuel. -/
def sitemapRun (world : World) (root : String) :
    Option (List String × List String) :=
  resolveLoop world (fuelBound world root) [root] [] [] []

/-- `parse_sitemap` (source lines 50-110): the accumulated page URLs,
deduplicated as by `list(set(final_urls))` at line 110 (the set's iteration
order is arbitrary; `dedup` picks one representative order). -/
def parse_sitemap (world : World) (root : String) : List String :=
  match sitemapRun world root with
  | some (finalUrls, _) => finalUrls.dedup
  | none => []

/-- The page URLs one classified document can contribute to `final_urls`:
the stripped non-empty `<url><loc>` texts of a `urlset` (source lines 90-93),
or the stripped non-empty non-`.xml` `loc` texts of an unknown-root-tag
document (source lines 96-103).  Index and failed documents contribute none. -/
def entryPages : SDoc → List String
  | .urlset ls => ls.filterMap fun t => if t = "" then none else some (pyStrip t)
  | .other ls => ls.filterMap fun t =>
      if t = "" then none
      else if strEndsWith (pyStrip t) ".xml" then none else some (pyStrip t)
  | .index _ => []
  | .bad => []

/-- All leaf page entries of the world. -/
def pageEntries : World → List String
  | [] => []
  | p :: rest => entryPages p.2 ++ pageEntries rest

/-- `u` is the URL of a sitemap-index document of the world. -/
def isIndexURL (world : World) (u : String) : Bool :=
  match world.lookup u with
  | some (.index _) => true
  | _ => false

/-- A proper sitemap tree: no URL listed anywhere as a page entry is itself
the URL of a sitemap-index document (sitemap URLs and page URLs are disjoint
roles). -/
def wellFormedTree (world : World) : Bool :=
  (pageEntries world).all fun u => !(isIndexURL world u)

/-! ### Resolver lemmas -/

lemma lookup_mem {world : World} {u : String} {d : SDoc}
    (h : world.lookup u = some d) : (u, d) ∈ world := by
  induction world with
  | nil => simp [List.lookup] at h
  | cons p t ih =>
    obtain ⟨k, v⟩ := p
    by_cases hk : u = k
    · subst hk
      simp [List.lookup] at h
      subst h
      exact List.mem_cons_self _ _
    · have hb : (u == k) = false := beq_false_of_ne hk
      simp [List.lookup, hb] at h
      exact List.mem_cons_of_mem _ (ih h)

lemma lookup_none {world : World} {u : String} (h : u ∉ keysOf world) :
    world.lookup u = none := by
  induction world with
  | nil => rfl
  | cons p t ih =>
    obtain ⟨k, v⟩ := p
    have hk : u ≠ k := by
      intro he
      exact h (by simp [keysOf, he])
    have ht : u ∉ keysOf t := by
      intro hm
      refine h ?_
      simp only [keysOf, List.map_cons, List.mem_cons]
      exact Or.inr (by simpa [keysOf] using hm)
    have hb : (u == k) = false := beq_false_of_ne hk
    simp only [List.lookup, hb]
    exact ih ht

lemma mem_keys_of_lookup {world : World} {u : String} {d : SDoc}
    (h : world.lookup u = some d) : u ∈ keysOf world :=
  List.mem_map_of_mem Prod.fst (lookup_mem h)

lemma lookup_docSize_le {world : World} {u : String} {d : SDoc}
    (h : world.lookup u = some d) : docSize d ≤ sumSizes world := by
  have hm : docSize d ∈ world.map (fun p => docSize p.2) :=
    List.mem_map_of_mem (fun p => docSize p.2) (lookup_mem h)
  exact List.single_le_sum (fun x _ => Nat.zero_le x) _ hm

lemma countP_not_mem_cons_le (l seen : List String) (u : String) :
    l.countP (fun x => decide (x ∉ u :: seen)) ≤
      l.countP (fun x => decide (x ∉ seen)) := by
  apply List.countP_mono_left
  intro a _ h
  simp only [decide_eq_true_eq, List.mem_cons, not_or] at h ⊢
  exact h.2

lemma countP_not_mem_cons_lt (l : List String) (seen : List String) (u : String)
    (hul : u ∈ l) (hus : u ∉ seen) :
    l.countP (fun x => decide (x ∉ u :: seen)) <
      l.countP (fun x => decide (x ∉ seen)) := by
  induction l with
  | nil => simp at hul
  | cons a t ih =>
    rw [List.countP_cons, List.countP_cons]
    rcases List.mem_cons.mp hul with rfl | hat
    · have h1 : decide (u ∉ u :: seen) = false := by simp
      have h2 : decide (u ∉ seen) = true := by simpa using hus
      rw [h1, h2]
      have := countP_not_mem_cons_le t seen u
      simp only [if_neg (by simp : ¬(false = true)), if_pos rfl, if_true]
      omega
    · have hmono : (decide (a ∉ u :: seen) = true) → (decide (a ∉ seen) = true) := by
        intro h
        simp only [decide_eq_true_eq, List.mem_cons, not_or] at h ⊢
        exact h.2
      have hlt := ih hat
      cases hp : decide (a ∉ u :: seen) <;> cases hq : decide (a ∉ seen) <;>
        simp only [if_neg (by simp : ¬(false = true)), if_pos rfl, if_true]
      · omega
      · omega
      · exact absurd (hmono hp) (by simp [hq])
      · omega

lemma processURL_fst_length_le (world : World) (seen : List String) (u : String) :
    (processURL world seen u).1.length ≤ sumSizes world := by
  cases hl : world.lookup u with
  | none => simp [processURL, hl]
  | some d =>
    have hle := lookup_docSize_le hl
    cases d with
    | bad => simp [processURL, hl]
    | urlset ls => simp [processURL, hl]
    | index ls =>
      simp only [processURL, hl]
      calc _ ≤ ls.length := List.length_filterMap_le _ _
        _ ≤ sumSizes world := by simpa [docSize] using hle
    | other ls =>
      simp only [processURL, hl]
      calc _ ≤ ls.length := List.length_filterMap_le _ _
        _ ≤ sumSizes world := by simpa [docSize] using hle

/-- With at least `loopMeasure` fuel, the worklist loop completes: this is the
termination argument of the source loop (the visited set bounds the number of
fetches, the world bounds how much each fetch can enqueue). -/
lemma resolveLoop_isSome (world : World) :
    ∀ (fuel : Nat) (queue seen acc log : List String),
      loopMeasure world queue seen ≤ fuel →
      (resolveLoop world fuel queue seen acc log).isSome = true := by
  intro fuel
  induction fuel with
  | zero =>
    intro queue seen acc log h
    match queue with
    | [] => simp [resolveLoop]
    | u :: rest =>
      exfalso
      simp only [loopMeasure, List.length_cons] at h
      omega
  | succ fuel ih =>
    intro queue seen acc log h
    match queue with
    | [] => simp [resolveLoop]
    | u :: rest =>
      rw [resolveLoop]
      by_cases hu : u ∈ seen
      · rw [if_pos hu]
        apply ih
        simp only [loopMeasure, List.length_cons] at h ⊢
        omega
      · rw [if_neg hu]
        apply ih
        simp only [loopMeasure, List.length_cons, List.length_append] at h ⊢
        by_cases hk : u ∈ keysOf world
        · have hlt : unvisited world (u :: seen) < unvisited world seen :=
            countP_not_mem_cons_lt _ _ _ hk hu
          have henq : (processURL world (u :: seen) u).1.length + 1 ≤ enqBound world := by
            have := processURL_fst_length_le world (u :: seen) u
            simp only [enqBound]
            omega
          have hmul : enqBound world * (unvisited world (u :: seen) + 1) ≤
              enqBound world * unvisited world seen :=
            Nat.mul_le_mul_left _ (by omega)
          rw [Nat.mul_add, Nat.mul_one] at hmul
          omega
        · have hnone : world.lookup u = none := lookup_none hk
          have hzero : (processURL world (u :: seen) u).1.length = 0 := by
            simp [processURL, hnone]
          have hle : unvisited world (u :: seen) ≤ unvisited world seen :=
            countP_not_mem_cons_le _ _ _
          have hmul : enqBound world * unvisited world (u :: seen) ≤
              enqBound world * unvisited world seen :=
            Nat.mul_le_mul_left _ hle
          omega

/-- The loop's fetch log stays duplicate-free: a URL is fetched only when it
is not in the visited set, and immediately becomes visited. -/
lemma resolveLoop_log_nodup (world : World) :
    ∀ (fuel : Nat) (queue seen acc log : List String)
      (res : List String × List String),
      resolveLoop world fuel queue seen acc log = some res →
      log.Nodup → (∀ x ∈ log, x ∈ seen) → res.2.Nodup := by
  intro fuel
  induction fuel with
  | zero =>
    intro queue seen acc log res h hnd hsub
    match queue with
    | [] =>
      simp [resolveLoop] at h
      cases h
      exact hnd
    | u :: rest => simp [resolveLoop] at h
  | succ fuel ih =>
    intro queue seen acc log res h hnd hsub
    match queue with
    | [] =>
      simp [resolveLoop] at h
      cases h
      exact hnd
    | u :: rest =>
      rw [resolveLoop] at h
      by_cases hu : u ∈ seen
      · rw [if_pos hu] at h
        exact ih rest seen acc log res h hnd hsub
      · rw [if_neg hu] at h
        refine ih _ _ _ _ res h ?_ ?_
        · have hul : u ∉ log := fun hx => hu (hsub u hx)
          simp [List.nodup_append, hnd, hul]
        · intro x hx
          rcases List.mem_append.mp hx with hx | hx
          · exact List.mem_cons_of_mem _ (hsub x hx)
          · simp at hx
            subst hx
            exact List.mem_cons_self _ _

/-- Membership in one world entry's page contribution gives membership in the
world's page entries. -/
lemma mem_pageEntries {world : World} {q : String × SDoc} (hm : q ∈ world)
    {x : String} (hx : x ∈ entryPages q.2) : x ∈ pageEntries world := by
  induction world with
  | nil => simp at hm
  | cons p rest ih =>
    simp only [pageEntries, List.mem_append]
    rcases List.mem_cons.mp hm with h | h
    · subst h
      exact Or.inl hx
    · exact Or.inr (ih h)

/-- Every URL that `processURL` emits as a page is a page entry of the world. -/
lemma processURL_snd_sub (world : World) (seen : List String) (u : String) :
    ∀ x ∈ (processURL world seen u).2, x ∈ pageEntries world := by
  intro x hx
  cases hl : world.lookup u with
  | none => simp [processURL, hl] at hx
  | some d =>
    refine mem_pageEntries (lookup_mem hl) ?_
    cases d with
    | index ls => simp [processURL, hl] at hx
    | bad => simp [processURL, hl] at hx
    | urlset ls => simpa [processURL, hl, entryPages] using hx
    | other ls => simpa [processURL, hl, entryPages] using hx

/-- Every URL in the loop's final `final_urls` either was there initially or
is a page entry of the world. -/
lemma resolveLoop_acc_sub (world : World) :
    ∀ (fuel : Nat) (queue seen acc log : List String)
      (res : List String × List String),
      resolveLoop world fuel queue seen acc log = some res →
      (∀ x ∈ acc, x ∈ pageEntries world) →
      ∀ x ∈ res.1, x ∈ pageEntries world := by
  intro fuel
  induction fuel with
  | zero =>
    intro queue seen acc log res h hacc
    match queue with
    | [] =>
      simp [resolveLoop] at h
      cases h
      exact hacc
    | u :: rest => simp [resolveLoop] at h
  | succ fuel ih =>
    intro queue seen acc log res h hacc
    match queue with
    | [] =>
      simp [resolveLoop] at h
      cases h
      exact hacc
    | u :: rest =>
      rw [resolveLoop] at h
      by_cases hu : u ∈ seen
      · rw [if_pos hu] at h
        exact ih rest seen acc log res h hacc
      · rw [if_neg hu] at h
        refine ih _ _ _ _ res h ?_
        intro x hx
        rcases List.mem_append.mp hx with hx | hx
        · exact hacc x hx
        · exact processURL_snd_sub world (u :: seen) u x hx

/-! ### Claim theorems: sitemap resolver -/

/-- C2: for every input sitemap graph (any `World`, hence also cyclic graphs
and graphs whose URLs were enqueued by the unknown-root-tag fallback branch),
(i) the run from any root completes with sufficient computable fuel and its
log of fetched URLs has no duplicates — each distinct URL is fetched at most
once; (ii) the loop terminates exactly when the queue empties, regardless of
remaining fuel; (iii) concretely, the cyclic two-sitemap graph A ↔ B
terminates, fetching each of A and B exactly once. -/
theorem C2_resolver_terminates_fetches_once (world : World) (root : String) :
    (∃ finalUrls log, sitemapRun world root = some (finalUrls, log) ∧ log.Nodup) ∧
    (∀ fuel seen acc log,
      resolveLoop world fuel [] seen acc log = some (acc, log)) ∧
    (sitemapRun
        [("http://a/s.xml", SDoc.index ["http://b/s.xml"]),
         ("http://b/s.xml", SDoc.index ["http://a/s.xml"])]
        "http://a/s.xml").map Prod.snd =
      some ["http://a/s.xml", "http://b/s.xml"] := by
  refine ⟨?_, ?_, ?_⟩
  · have hs := resolveLoop_isSome world (fuelBound world root) [root] [] [] []
      (le_refl _)
    obtain ⟨res, hres⟩ := Option.isSome_iff_exists.mp hs
    obtain ⟨finalUrls, log⟩ := res
    refine ⟨finalUrls, log, hres, ?_⟩
    exact resolveLoop_log_nodup world _ _ _ _ _ _ hres List.nodup_nil (by simp)
  · intro fuel seen acc log
    cases fuel <;> rfl
  · rfl

/-- C3: for every proper sitemap tree (a world in which no page entry is the
URL of a sitemap-index document), the resolver's returned list has no
duplicate URLs, and each returned URL is a leaf page entry of the world and
not a sitemap-index URL — at any nesting depth, also under repeated
references.  (The source's `list(set(...))` makes the order unspecified; the
embedding fixes one representative order via `dedup`.) -/
theorem C3_resolver_output_deduped_leaf_pages (world : World) (root : String)
    (hWF : wellFormedTree world = true) :
    (parse_sitemap world root).Nodup ∧
    ∀ u ∈ parse_sitemap world root,
      u ∈ pageEntries world ∧ isIndexURL world u = false := by
  constructor
  · rcases h : sitemapRun world root with - | ⟨f, l⟩
    · simp [parse_sitemap, h]
    · simp only [parse_sitemap, h]
      exact List.nodup_dedup f
  · intro u hu
    rcases h : sitemapRun world root with - | ⟨f, l⟩
    · simp [parse_sitemap, h] at hu
    · simp only [parse_sitemap, h] at hu
      have hm : u ∈ f := List.mem_dedup.mp hu
      have hp : u ∈ pageEntries world :=
        resolveLoop_acc_sub world _ _ _ _ _ _ h (by simp) u hm
      refine ⟨hp, ?_⟩
      have := List.all_eq_true.mp hWF u hp
      simpa using this

/-- A small concrete sitemap tree: an index referencing two urlsets which
share one page URL. -/
def sampleWorld : World :=
  [("http://e.com/s1.xml",
      SDoc.index ["http://e.com/s2.xml", "http://e.com/s3.xml"]),
   ("http://e.com/s2.xml",
      SDoc.urlset ["http://e.com/p1", "http://e.com/p2"]),
   ("http://e.com/s3.xml",
      SDoc.urlset ["http://e.com/p1"])]

/-- Witness for C3 at a concrete world: the well-formedness hypothesis holds
by evaluation and the theorem applies. -/
theorem C3_resolver_output_deduped_leaf_pages_witness :
    wellFormedTree sampleWorld = true ∧
    ((parse_sitemap sampleWorld "http://e.com/s1.xml").Nodup ∧
      ∀ u ∈ parse_sitemap sampleWorld "http://e.com/s1.xml",
        u ∈ pageEntries sampleWorld ∧ isIndexURL sampleWorld u = false) :=
  ⟨by decide,
   C3_resolver_output_deduped_leaf_pages sampleWorld "http://e.com/s1.xml"
     (by decide)⟩

/-! ### Claim theorems: severity cascade and fallback record -/

/-- C1: `compute_severity` is exactly the first-match evaluation of the
spec's ordered rule list (short-circuit, first match wins); in particular a
record with `http_status = 500` and all other signals clean is ERROR, a
record with status 200 and `h1_count = 0` is ERROR, and a record whose only
issue is `img_missing_alt = 3` is WARN. -/
theorem C1_severity_cascade_order :
    (∀ m : AuditData, compute_severity m = firstMatch severityCascade m) ∧
    (∀ m : AuditData, m.http_status = 500 → m.h1_count ≠ 0 →
      m.canonical_status ≠ "MISSING" → m.title_status = "OK" →
      m.is_thin_content = 0 → m.meta_desc_status = "OK" →
      m.broken_anchors = 0 → m.img_missing_alt = 0 →
      compute_severity m = "ERROR") ∧
    (∀ m : AuditData, m.http_status = 200 → m.h1_count = 0 →
      compute_severity m = "ERROR") ∧
    (∀ m : AuditData, m.http_status < 400 → m.h1_count ≠ 0 →
      m.canonical_status ≠ "MISSING" → m.title_status = "OK" →
      m.is_thin_content = 0 → m.meta_desc_status = "OK" →
      m.broken_anchors = 0 → m.img_missing_alt = 3 →
      compute_severity m = "WARN") := by
  refine ⟨?_, ?_, ?_, ?_⟩
  · intro m
    simp only [compute_severity, severityCascade, firstMatch, decide_eq_true_eq]
  · intro m h0 _ _ _ _ _ _ _
    simp [compute_severity, h0]
  · intro m h0 h1
    have hn : ¬ 400 ≤ m.http_status := by omega
    simp [compute_severity, hn, h1]
  · intro m h0 h1 h2 h3 h4 h5 h6 h7
    have hn : ¬ 400 ≤ m.http_status := by omega
    simp [compute_severity, hn, h1, h2, h3, h4, h5, h6, h7]

/-- A record with every signal clean (used to instantiate the cascade
claims). -/
def cleanData : AuditData :=
  { word_count := 400, is_thin_content := 0, title := "t", title_len := 40,
    title_status := "OK", meta_desc := "d", meta_desc_len := 100,
    meta_desc_status := "OK", h1_count := 1, canonical_link := "c",
    canonical_status := "SELF", internal_links := 0, external_links := 0,
    broken_anchors := 0, img_missing_alt := 0, http_status := 200 }

/-- Witness for C1: the three particular records evaluated concretely. -/
theorem C1_severity_cascade_order_witness :
    compute_severity { cleanData with http_status := 500 } = "ERROR" ∧
    compute_severity { cleanData with h1_count := 0 } = "ERROR" ∧
    compute_severity { cleanData with img_missing_alt := 3 } = "WARN" :=
  ⟨C1_severity_cascade_order.2.1 _ rfl (by decide) (by decide) rfl rfl rfl rfl
      rfl,
   C1_severity_cascade_order.2.2.1 _ rfl rfl,
   C1_severity_cascade_order.2.2.2 _ (by decide) (by decide) (by decide) rfl
      rfl rfl rfl rfl⟩

/-- C10: a `canonical_status` of OTHER is never penalized — with every other
signal clean the cascade reaches its final branch and returns OK. -/
theorem C10_canonical_other_is_ok (m : AuditData)
    (h0 : m.http_status < 400) (h1 : 1 ≤ m.h1_count)
    (h2 : m.title_status = "OK") (h3 : m.meta_desc_status = "OK")
    (h4 : m.is_thin_content = 0) (h5 : m.broken_anchors = 0)
    (h6 : m.img_missing_alt = 0) (h7 : m.canonical_status = "OTHER") :
    compute_severity m = "OK" := by
  have hn : ¬ 400 ≤ m.http_status := by omega
  have hh : m.h1_count ≠ 0 := by omega
  simp [compute_severity, hn, hh, h2, h3, h4, h5, h6, h7]

/-- Witness for C10: a concrete clean record with an OTHER canonical. -/
theorem C10_canonical_other_is_ok_witness :
    compute_severity { cleanData with canonical_status := "OTHER" } = "OK" :=
  C10_canonical_other_is_ok _ (by decide) (by decide) rfl rfl rfl rfl rfl rfl

/-- C4 counterexample: a transport failure (status 0 with empty body) takes
the fallback path and its severity is ERROR, but *not* because of
`http_status`: 0 < 400, so the first cascade rule that fires is rule 2
(`h1_count == 0`), not the `http_status >= 400` rule — refuting "always
ERROR because of http_status". -/
theorem C4_fallback_counterexample :
    (400 ≤ 0 ∨ ("" : String) = "") ∧
    processPage (fun _ => Node.text "") "http://e.com/p" "e.com" 0 "" =
      fallbackData 0 ∧
    compute_severity (fallbackData 0) = "ERROR" ∧
    severityRuleIndex (fallbackData 0) ≠ 1 ∧
    severityRuleIndex (fallbackData 0) = 2 :=
  ⟨Or.inr rfl, rfl, rfl, by decide, rfl⟩

/-- C4 (amended): whenever a page fetch fails (`http_status ≥ 400` or empty
body), the audit produces the fixed all-missing/zeroed record carrying the
actual `http_status`, and its severity is always ERROR — via the
`http_status` rule when the status is ≥ 400 (in particular for 404), and via
the `h1_count == 0` rule when a failed fetch has status < 400. -/
theorem C4_fallback_record_error (parseHtml : String → Node)
    (url domain : String) (status : Nat) (body : String)
    (h : 400 ≤ status ∨ body = "") :
    processPage parseHtml url domain status body = fallbackData status ∧
    compute_severity (fallbackData status) = "ERROR" ∧
    (400 ≤ status → severityRuleIndex (fallbackData status) = 1) ∧
    (status < 400 → severityRuleIndex (fallbackData status) = 2) ∧
    (fallbackData status).http_status = status ∧
    (fallbackData status).title = "" ∧
    (fallbackData status).meta_desc = "" ∧
    (fallbackData status).canonical_link = "" ∧
    (fallbackData status).title_status = "MISSING" ∧
    (fallbackData status).meta_desc_status = "MISSING" ∧
    (fallbackData status).canonical_status = "MISSING" ∧
    (fallbackData status).word_count = 0 ∧
    (fallbackData status).h1_count = 0 ∧
    (fallbackData status).internal_links = 0 ∧
    (fallbackData status).external_links = 0 ∧
    (fallbackData status).broken_anchors = 0 ∧
    (fallbackData status).img_missing_alt = 0 := by
  refine ⟨?_, ?_, ?_, ?_, rfl, rfl, rfl, rfl, rfl, rfl, rfl, rfl, rfl, rfl,
    rfl, rfl, rfl⟩
  · simp only [processPage]
    exact if_pos h
  · by_cases h4 : 400 ≤ status
    · simp [compute_severity, fallbackData, h4]
    · simp [compute_severity, fallbackData, h4]
  · intro h4
    simp [severityRuleIndex, fallbackData, h4]
  · intro h4
    have hn : ¬ 400 ≤ status := by omega
    simp [severityRuleIndex, fallbackData, hn]

/-- Witness for C4 (amended): a 404 fetch for a listed URL. -/
theorem C4_fallback_record_error_witness :
    (400 ≤ 404 ∨ ("x" : String) = "") ∧
    processPage (fun _ => Node.text "") "http://e.com/p" "e.com" 404 "x" =
      fallbackData 404 ∧
    compute_severity (fallbackData 404) = "ERROR" :=
  ⟨Or.inl (by decide),
   (C4_fallback_record_error (fun _ => Node.text "") "http://e.com/p" "e.com"
      404 "x" (Or.inl (by decide))).1,
   (C4_fallback_record_error (fun _ => Node.text "") "http://e.com/p" "e.com"
      404 "x" (Or.inl (by decide))).2.1⟩

/-- C9 counterexample: the record the auditor produces for a failed fetch
(status 404) has `word_count = 0 < 300` yet `is_thin_content = 0`, refuting
the iff over *every* record produced by the auditor. -/
theorem C9_thin_content_counterexample :
    (processPage (fun _ => Node.text "") "http://e.com/p" "e.com" 404
        "x").word_count < 300 ∧
    (processPage (fun _ => Node.text "") "http://e.com/p" "e.com" 404
        "x").is_thin_content = 0 :=
  ⟨by decide, rfl⟩

/-- C9 (amended): for records produced by `audit_html` (the successful-fetch
path), `is_thin_content` is truthy exactly when `word_count < 300`; the
fixed fallback record of a failed fetch instead always has
`is_thin_content = 0`. -/
theorem C9_thin_content_amended :
    (∀ url doc domain,
      ((audit_html url doc domain).is_thin_content ≠ 0 ↔
        (audit_html url doc domain).word_count < THIN_CONTENT_THRESHOLD)) ∧
    (∀ parseHtml url domain status body, (400 ≤ status ∨ body = "") →
      (processPage parseHtml url domain status body).is_thin_content = 0) := by
  constructor
  · intro url doc domain
    simp only [audit_html]
    split <;> simp_all
  · intro parseHtml url domain status body h
    simp only [processPage]
    rw [if_pos h]
    rfl

/-- Witness for C9 (amended): the fallback branch at a concrete 404 fetch. -/
theorem C9_thin_content_amended_witness :
    (400 ≤ 404 ∨ ("x" : String) = "") ∧
    (processPage (fun _ => Node.text "") "http://e.com/q" "e.com" 404
        "x").is_thin_content = 0 :=
  ⟨Or.inl (by decide),
   C9_thin_content_amended.2 (fun _ => Node.text "") "http://e.com/q" "e.com"
     404 "x" (Or.inl (by decide))⟩

/-! ### Claim theorems: audit signal extraction -/

/-- C5: `title_status` is a function of `title_len` with buckets
0 → MISSING, 1-29 → TOO_SHORT, 30-60 → OK, >60 → TOO_LONG (inclusive at 30
and 60), and the boundary values 29/30/60/61 map as stated. -/
theorem C5_title_status_buckets :
    (∀ url doc domain, (audit_html url doc domain).title_status =
      titleStatusOfLen (audit_html url doc domain).title_len) ∧
    (∀ n : Nat,
      (titleStatusOfLen n = "MISSING" ↔ n = 0) ∧
      (titleStatusOfLen n = "TOO_SHORT" ↔ 1 ≤ n ∧ n ≤ 29) ∧
      (titleStatusOfLen n = "OK" ↔ 30 ≤ n ∧ n ≤ 60) ∧
      (titleStatusOfLen n = "TOO_LONG" ↔ 61 ≤ n)) ∧
    titleStatusOfLen 29 = "TOO_SHORT" ∧ titleStatusOfLen 30 = "OK" ∧
    titleStatusOfLen 60 = "OK" ∧ titleStatusOfLen 61 = "TOO_LONG" := by
  refine ⟨fun url doc domain => rfl, ?_, rfl, rfl, rfl, rfl⟩
  intro n
  unfold titleStatusOfLen TITLE_MIN_LEN TITLE_MAX_LEN
  split_ifs with h1 h2 h3 <;>
    refine ⟨?_, ?_, ?_, ?_⟩ <;>
    constructor <;>
    intro h <;>
    first
      | rfl
      | omega
      | exact absurd h (by decide)

/-- C6: the meta description is the trimmed `content` of the first `meta`
element whose `name` equals the exact string `description`, and
`meta_desc_status` buckets its length with bounds 50/160 inclusive and the
stated boundary values 49/50/160/161. -/
theorem C6_meta_description_buckets :
    (∀ url doc domain,
      (audit_html url doc domain).meta_desc = metaDescOf doc ∧
      (audit_html url doc domain).meta_desc_len = (metaDescOf doc).length ∧
      (audit_html url doc domain).meta_desc_status =
        descStatusOfLen (metaDescOf doc).length) ∧
    (∀ doc d_tag c, findTagAttr doc "meta" "name" "description" = some d_tag →
      d_tag.getAttr "content" = some c → c ≠ "" →
      metaDescOf doc = pyStrip c) ∧
    (∀ n : Nat,
      (descStatusOfLen n = "MISSING" ↔ n = 0) ∧
      (descStatusOfLen n = "TOO_SHORT" ↔ 1 ≤ n ∧ n ≤ 49) ∧
      (descStatusOfLen n = "OK" ↔ 50 ≤ n ∧ n ≤ 160) ∧
      (descStatusOfLen n = "TOO_LONG" ↔ 161 ≤ n)) ∧
    descStatusOfLen 49 = "TOO_SHORT" ∧ descStatusOfLen 50 = "OK" ∧
    descStatusOfLen 160 = "OK" ∧ descStatusOfLen 161 = "TOO_LONG" := by
  refine ⟨fun url doc domain => ⟨rfl, rfl, rfl⟩, ?_, ?_, rfl, rfl, rfl, rfl⟩
  · intro doc d_tag c hf hc hne
    simp [metaDescOf, hf, hc, hne]
  · intro n
    unfold descStatusOfLen DESC_MIN_LEN DESC_MAX_LEN
    split_ifs with h1 h2 h3 <;>
      refine ⟨?_, ?_, ?_, ?_⟩ <;>
      constructor <;>
      intro h <;>
      first
        | rfl
        | omega
        | exact absurd h (by decide)

/-- A small concrete page used to instantiate the extraction claims. -/
def sampleDoc : Node :=
  Node.elem "html" [] [
    Node.elem "head" [] [
      Node.elem "meta"
        [("name", "description"), ("content", " A description ")] [],
      Node.elem "link" [("rel", "canonical"), ("href", "http://e.com/p/")] [],
      Node.elem "title" [] [Node.text "Hello"]],
    Node.elem "body" [] [Node.elem "h1" [] [Node.text "Hi"]]]

/-- Witness for C6: the extraction conjunct applied to a concrete page. -/
theorem C6_meta_description_buckets_witness :
    findTagAttr sampleDoc "meta" "name" "description" =
      some (Node.elem "meta"
        [("name", "description"), ("content", " A description ")] []) ∧
    (Node.elem "meta"
        [("name", "description"), ("content", " A description ")] []).getAttr
      "content" = some " A description " ∧
    (" A description " : String) ≠ "" ∧
    metaDescOf sampleDoc = pyStrip " A description " :=
  ⟨rfl, rfl, by decide,
   C6_meta_description_buckets.2.1 sampleDoc _ " A description " rfl rfl
     (by decide)⟩

/-- C7: the canonical link is the trimmed `href` of the first `link` element
with `rel` equal to `canonical`; the status is MISSING exactly when that href
is empty/absent, SELF exactly when it equals the page URL after stripping
trailing slashes from both, and OTHER for every other non-empty href. -/
theorem C7_canonical_status_rules :
    (∀ url doc domain,
      (audit_html url doc domain).canonical_link = canonicalHrefOf doc) ∧
    (∀ doc c_tag h, findTagAttr doc "link" "rel" "canonical" = some c_tag →
      c_tag.getAttr "href" = some h → h ≠ "" →
      canonicalHrefOf doc = pyStrip h) ∧
    (∀ url doc domain,
      ((audit_html url doc domain).canonical_status = "MISSING" ↔
        canonicalHrefOf doc = "") ∧
      ((audit_html url doc domain).canonical_status = "SELF" ↔
        canonicalHrefOf doc ≠ "" ∧
          rstripSlash (canonicalHrefOf doc) = rstripSlash url) ∧
      ((audit_html url doc domain).canonical_status = "OTHER" ↔
        canonicalHrefOf doc ≠ "" ∧
          rstripSlash (canonicalHrefOf doc) ≠ rstripSlash url)) := by
  refine ⟨fun url doc domain => rfl, ?_, ?_⟩
  · intro doc c_tag h hf hh hne
    simp [canonicalHrefOf, hf, hh, hne]
  · intro url doc domain
    have hcs : (audit_html url doc domain).canonical_status =
        (if canonicalHrefOf doc = "" then "MISSING"
         else if rstripSlash (canonicalHrefOf doc) = rstripSlash url then
           "SELF"
         else "OTHER") := rfl
    rw [hcs]
    by_cases h1 : canonicalHrefOf doc = ""
    · simp [h1]
    · by_cases h2 : rstripSlash (canonicalHrefOf doc) = rstripSlash url
      · simp [h1, h2]
      · simp [h1, h2]

/-- Witness for C7: the extraction conjunct and a SELF classification at a
concrete page. -/
theorem C7_canonical_status_rules_witness :
    findTagAttr sampleDoc "link" "rel" "canonical" =
      some (Node.elem "link"
        [("rel", "canonical"), ("href", "http://e.com/p/")] []) ∧
    ("http://e.com/p/" : String) ≠ "" ∧
    canonicalHrefOf sampleDoc = pyStrip "http://e.com/p/" ∧
    (audit_html "http://e.com/p" sampleDoc "e.com").canonical_status =
      "SELF" :=
  ⟨rfl, by decide,
   C7_canonical_status_rules.2.1 sampleDoc _ "http://e.com/p/" rfl rfl
     (by decide),
   (C7_canonical_status_rules.2.2 "http://e.com/p" sampleDoc "e.com").2.1.mpr
     ⟨by decide, by decide⟩⟩

/-- A string beginning with `#` is `'#'` followed by some tail. -/
lemma startsWith_hash_struct {href : String}
    (h : strStartsWith href "#" = true) : ∃ cs, href = ⟨'#' :: cs⟩ := by
  obtain ⟨data⟩ := href
  cases data with
  | nil => simp [strStartsWith, List.isPrefixOf] at h
  | cons c cs =>
    have hc : c = '#' := by
      have := h
      simp [strStartsWith, List.isPrefixOf] at this
      exact this.symm
    subst hc
    exact ⟨cs, rfl⟩

/-- C8: the anchor classification.  For every anchor: the audited link
counters are the fold of the per-anchor step over the document's anchors
with the collected id set; an empty/`mailto:`/`tel:`/`javascript:` href
changes no counter; an href beginning with `#` increments `broken_anchors`
exactly when the fragment after `#` is non-empty and not among the collected
ids (a bare `#` never counts); any other href increments `internal_links`
when its lower-cased `www.`-stripped host is empty, equals the root domain,
or ends with `"." ++ domain`, and increments `external_links` otherwise. -/
theorem C8_anchor_classification :
    (∀ url doc domain,
      ((audit_html url doc domain).internal_links,
       (audit_html url doc domain).external_links,
       (audit_html url doc domain).broken_anchors) =
        (anchorsOf doc).foldl (linkStep (idsOf doc) domain) (0, 0, 0)) ∧
    (∀ ids domain acc a, linkStep ids domain acc a =
      linkStepHref ids domain acc ((Node.getAttr a "href").getD "")) ∧
    (∀ ids domain acc href,
      (href = "" ∨ strStartsWith href "mailto:" = true ∨
        strStartsWith href "tel:" = true ∨
        strStartsWith href "javascript:" = true) →
      linkStepHref ids domain acc href = acc) ∧
    (∀ ids domain acc href, strStartsWith href "#" = true →
      ((pySliceFrom href 1 ≠ "" ∧ pySliceFrom href 1 ∉ ids →
        linkStepHref ids domain acc href = (acc.1, acc.2.1, acc.2.2 + 1)) ∧
       (pySliceFrom href 1 = "" ∨ pySliceFrom href 1 ∈ ids →
        linkStepHref ids domain acc href = acc))) ∧
    (∀ ids domain acc href,
      ¬ (href = "" ∨ strStartsWith href "mailto:" = true ∨
        strStartsWith href "tel:" = true ∨
        strStartsWith href "javascript:" = true) →
      strStartsWith href "#" = false →
      linkStepHref ids domain acc href =
        (if get_domain href = "" ∨ get_domain href = domain ∨
            strEndsWith (get_domain href) ("." ++ domain) = true then
          (acc.1 + 1, acc.2.1, acc.2.2)
        else (acc.1, acc.2.1 + 1, acc.2.2))) := by
  refine ⟨fun url doc domain => rfl, fun ids domain acc a => rfl, ?_, ?_, ?_⟩
  · intro ids domain acc href h
    simp only [linkStepHref]
    exact if_pos h
  · intro ids domain acc href h
    obtain ⟨cs, rfl⟩ := startsWith_hash_struct h
    have hne : (⟨'#' :: cs⟩ : String) ≠ "" := by
      intro he
      simpa using congrArg String.data he
    have hskip : ¬ ((⟨'#' :: cs⟩ : String) = "" ∨
        strStartsWith ⟨'#' :: cs⟩ "mailto:" = true ∨
        strStartsWith ⟨'#' :: cs⟩ "tel:" = true ∨
        strStartsWith ⟨'#' :: cs⟩ "javascript:" = true) := by
      intro hcon
      rcases hcon with h1 | h1 | h1 | h1
      · exact hne h1
      · simp [strStartsWith, List.isPrefixOf] at h1
      · simp [strStartsWith, List.isPrefixOf] at h1
      · simp [strStartsWith, List.isPrefixOf] at h1
    constructor
    · rintro ⟨hfrag, hnotin⟩
      have hlen : 1 < (⟨'#' :: cs⟩ : String).length := by
        have hcs : cs ≠ [] := by
          intro he
          subst he
          exact hfrag rfl
        have := List.length_pos.mpr hcs
        simp only [String.length, List.length_cons]
        omega
      simp only [linkStepHref]
      rw [if_neg hskip, if_pos h, if_pos ⟨hlen, hnotin⟩]
    · intro hor
      simp only [linkStepHref]
      rw [if_neg hskip, if_pos h, if_neg ?_]
      rcases hor with hor | hor
      · have hcs : cs = [] := by simpa using congrArg String.data hor
        subst hcs
        intro hcon
        have := hcon.1
        simp [String.length] at this
      · intro hcon
        exact hcon.2 hor
  · intro ids domain acc href hskip hh
    simp only [linkStepHref]
    rw [if_neg hskip, if_neg (by simp [hh])]
    by_cases h1 : get_domain href = ""
    · rw [if_pos h1, if_pos (Or.inl h1)]
    · rw [if_neg h1]
      by_cases h2 : get_domain href = domain ∨
          strEndsWith (get_domain href) ("." ++ domain) = true
      · rw [if_pos h2, if_pos (Or.inr h2)]
      · rw [if_neg h2, if_neg ?_]
        intro hcon
        rcases hcon with hc | hc
        · exact h1 hc
        · exact h2 hc

/-- Witness for C8: every classification branch exercised at concrete
hrefs, with root domain `e.com` and id set `["top"]`. -/
theorem C8_anchor_classification_witness :
    linkStepHref ["top"] "e.com" (0, 0, 0) "mailto:x@y.z" = (0, 0, 0) ∧
    linkStepHref ["top"] "e.com" (0, 0, 0) "#section1" = (0, 0, 1) ∧
    linkStepHref ["top"] "e.com" (0, 0, 0) "#" = (0, 0, 0) ∧
    linkStepHref ["top"] "e.com" (0, 0, 0) "#top" = (0, 0, 0) ∧
    linkStepHref ["top"] "e.com" (0, 0, 0) "https://www.e.com/a" = (1, 0, 0) ∧
    linkStepHref ["top"] "e.com" (0, 0, 0) "https://other.org/a" = (0, 1, 0) :=
  ⟨C8_anchor_classification.2.2.1 ["top"] "e.com" (0, 0, 0) "mailto:x@y.z"
      (Or.inr (Or.inl (by decide))),
   (C8_anchor_classification.2.2.2.1 ["top"] "e.com" (0, 0, 0) "#section1"
      (by decide)).1 ⟨by decide, by decide⟩,
   (C8_anchor_classification.2.2.2.1 ["top"] "e.com" (0, 0, 0) "#"
      (by decide)).2 (Or.inl (by decide)),
   (C8_anchor_classification.2.2.2.1 ["top"] "e.com" (0, 0, 0) "#top"
      (by decide)).2 (Or.inr (by decide)),
   (C8_anchor_classification.2.2.2.2 ["top"] "e.com" (0, 0, 0)
      "https://www.e.com/a" (by decide) (by decide)).trans (by decide),
   (C8_anchor_classification.2.2.2.2 ["top"] "e.com" (0, 0, 0)
      "https://other.org/a" (by decide) (by decide)).trans (by decide)⟩

end SeoAudit
